import Mathlib

/-!
Verification development for `react-native-sized-webview`.

Two cores are embedded here:

* the host-side height Reconciler (`src/hooks/useAutoHeight.ts`): a state
  machine over committed height, a last-committed mirror, a single pending
  height, and a single-flight animation-frame flag;
* the in-page measurement Agent (the `AUTO_HEIGHT_BRIDGE` session-object
  script): its `postHeight` de-duplication/anomaly logic, its
  `markLoading`/`clearLoading` media counter, and its idempotent bootstrap
  guard.

JavaScript numbers are modelled as rationals (`ℚ`); a payload that coerces to
`NaN` or `±Infinity` is modelled as `none` (both are rejected by the code's
`Number.isFinite` and truthiness guards before any state is touched).
-/

namespace SizedWebView

/-- JS `Math.ceil` on a rational, returned as a rational (the code keeps the
result in a JS number). -/
def jsCeil (q : ℚ) : ℚ := (⌈q⌉ : ℤ)

/-- State of one `useAutoHeight` Reconciler instance.

Fields mirror `src/hooks/useAutoHeight.ts`:
`height` is the React state returned to the container; `lastHeight` is
`lastHeightRef.current`; `framePending` states whether `frameRef.current` is
non-null, i.e. whether a `requestAnimationFrame` callback is outstanding;
`pending` is `pendingHeightRef.current`; `notifications` logs every
`onHeightChange` invocation in order; `rafRequests` counts how many times
`requestAnimationFrame` was called. -/
structure Reconciler where
  minHeight : ℚ
  height : ℚ
  lastHeight : ℚ
  framePending : Bool
  pending : Option ℚ
  notifications : List ℚ
  rafRequests : Nat
deriving Repr, DecidableEq

/-- Initial Reconciler state: `useState(() => Math.max(minHeight, 1))`, with
`lastHeightRef` initialised to the same value and nothing pending. -/
def initReconciler (m : ℚ) : Reconciler :=
  { minHeight := m
    height := max m 1
    lastHeight := max m 1
    framePending := false
    pending := none
    notifications := []
    rafRequests := 0 }

/-- The `commitHeight` callback: records the value in `lastHeightRef`, sets the
React state and invokes `onHeightChange`. -/
def commitHeight (r : Reconciler) (nextHeight : ℚ) : Reconciler :=
  { r with
    lastHeight := nextHeight
    height := nextHeight
    notifications := r.notifications ++ [nextHeight] }

/-- The `flushPendingHeight` callback: clears `frameRef`, takes the pending
value and commits it when present. -/
def flushPendingHeight (r : Reconciler) : Reconciler :=
  let r1 := { r with framePending := false }
  match r1.pending with
  | some p => commitHeight { r1 with pending := none } p
  | none => { r1 with pending := none }

/-- The `scheduleCommit` callback: overwrites the pending value; if a frame is
already outstanding it returns, otherwise it requests an animation frame when
`requestAnimationFrame` exists (`rafAvailable`) and falls back to a synchronous
flush when it does not. -/
def scheduleCommit (r : Reconciler) (nextHeight : ℚ) (rafAvailable : Bool) :
    Reconciler :=
  let r1 := { r with pending := some nextHeight }
  if r1.framePending then r1
  else if rafAvailable then
    { r1 with framePending := true, rafRequests := r1.rafRequests + 1 }
  else flushPendingHeight r1

/-- The `setHeightFromPayload` ingestion routine. The argument is the result
of JS numeric coercion of the raw payload: `none` models `NaN` and `±Infinity`
(rejected by `Number.isFinite`), `some v` a finite number. -/
def setHeightFromPayload (r : Reconciler) (numericValue : Option ℚ)
    (rafAvailable : Bool) : Reconciler :=
  match numericValue with
  | none => r
  | some v =>
    if v ≤ 0 then r
    else
      let nextHeight := max r.minHeight (jsCeil v)
      if |nextHeight - r.lastHeight| ≤ 1 then r
      else scheduleCommit r nextHeight rafAvailable

/-- The `useEffect` reacting to `minHeight`: after reconfiguration, if the new
minimum exceeds `lastHeightRef.current`, schedule `Math.ceil(minHeight)`
through the ordinary commit path. -/
def applyMinHeight (r : Reconciler) (m : ℚ) (rafAvailable : Bool) :
    Reconciler :=
  let r1 := { r with minHeight := m }
  if r1.lastHeight < m then scheduleCommit r1 (jsCeil m) rafAvailable else r1

/-- The environment fires the outstanding animation-frame callback, which runs
`flushPendingHeight`. When no callback is queued (`framePending = false`)
nothing happens: fired and cancelled callbacks are no longer in the queue. -/
def fireFrame (r : Reconciler) : Reconciler :=
  if r.framePending then flushPendingHeight r else r

/-- Unmount cleanup: `cancelAnimationFrame(frameRef.current)` removes the
outstanding callback from the environment's queue. -/
def disposeReconciler (r : Reconciler) : Reconciler :=
  { r with framePending := false }

/-- One observable Reconciler operation: payload ingestion (with the current
availability of `requestAnimationFrame`), `minHeight` reconfiguration, or the
firing of a scheduled frame. -/
inductive ROp where
  | ingest (payload : Option ℚ) (raf : Bool)
  | reconfig (m : ℚ) (raf : Bool)
  | fire
deriving Repr, DecidableEq

/-- Step function of the Reconciler state machine. -/
def stepR (r : Reconciler) : ROp → Reconciler
  | .ingest payload raf => setHeightFromPayload r payload raf
  | .reconfig m raf => applyMinHeight r m raf
  | .fire => fireFrame r

/-- Run a sequence of operations. -/
def runOps (r : Reconciler) (ops : List ROp) : Reconciler :=
  ops.foldl stepR r

/-- All states visited while running a sequence of operations, the initial and
final states included. -/
def traceR (r : Reconciler) : List ROp → List Reconciler
  | [] => [r]
  | op :: ops => r :: traceR (stepR r op) ops

/-- C1: ingesting payloads 180 and then 220 (both valid and above the change
threshold) before the scheduled commit fires requests exactly one animation
frame and leaves 220 pending; firing the frame produces exactly one change
notification, carrying 220, and commits 220; 180 is never the committed
height and is never notified at any point of the run. -/
theorem burst_commits_latest_only :
    (runOps (initReconciler 100)
        [ROp.ingest (some 180) true, ROp.ingest (some 220) true]).rafRequests
        = 1 ∧
    (runOps (initReconciler 100)
        [ROp.ingest (some 180) true, ROp.ingest (some 220) true]).notifications
        = [] ∧
    (runOps (initReconciler 100)
        [ROp.ingest (some 180) true, ROp.ingest (some 220) true]).pending
        = some 220 ∧
    (runOps (initReconciler 100)
        [ROp.ingest (some 180) true, ROp.ingest (some 220) true,
          ROp.fire]).rafRequests = 1 ∧
    (runOps (initReconciler 100)
        [ROp.ingest (some 180) true, ROp.ingest (some 220) true,
          ROp.fire]).height = 220 ∧
    (runOps (initReconciler 100)
        [ROp.ingest (some 180) true, ROp.ingest (some 220) true,
          ROp.fire]).notifications = [220] ∧
    ∀ s ∈ traceR (initReconciler 100)
        [ROp.ingest (some 180) true, ROp.ingest (some 220) true, ROp.fire],
      s.height ≠ 180 ∧ (180 : ℚ) ∉ s.notifications := by
  have h0 : initReconciler 100 =
      { minHeight := 100
        height := 100
        lastHeight := 100
        framePending := false
        pending := none
        notifications := []
        rafRequests := 0 } := by
    norm_num [initReconciler, max_def]
  have h1 : stepR (initReconciler 100) (ROp.ingest (some 180) true) =
      { minHeight := 100
        height := 100
        lastHeight := 100
        framePending := true
        pending := some 180
        notifications := []
        rafRequests := 1 } := by
    rw [h0]
    norm_num [stepR, setHeightFromPayload, jsCeil, scheduleCommit, max_def]
  have h2 : stepR
      { minHeight := 100
        height := 100
        lastHeight := 100
        framePending := true
        pending := some (180 : ℚ)
        notifications := []
        rafRequests := 1 } (ROp.ingest (some 220) true) =
      { minHeight := 100
        height := 100
        lastHeight := 100
        framePending := true
        pending := some 220
        notifications := []
        rafRequests := 1 } := by
    norm_num [stepR, setHeightFromPayload, jsCeil, scheduleCommit, max_def]
  have h3 : stepR
      { minHeight := 100
        height := 100
        lastHeight := 100
        framePending := true
        pending := some (220 : ℚ)
        notifications := []
        rafRequests := 1 } ROp.fire =
      { minHeight := 100
        height := 220
        lastHeight := 220
        framePending := false
        pending := none
        notifications := [220]
        rafRequests := 1 } := by
    norm_num [stepR, fireFrame, flushPendingHeight, commitHeight]
  have hrun2 : runOps (initReconciler 100)
      [ROp.ingest (some 180) true, ROp.ingest (some 220) true] =
      { minHeight := 100
        height := 100
        lastHeight := 100
        framePending := true
        pending := some 220
        notifications := []
        rafRequests := 1 } := by
    simp only [runOps, List.foldl, h1, h2]
  have hrun3 : runOps (initReconciler 100)
      [ROp.ingest (some 180) true, ROp.ingest (some 220) true, ROp.fire] =
      { minHeight := 100
        height := 220
        lastHeight := 220
        framePending := false
        pending := none
        notifications := [220]
        rafRequests := 1 } := by
    simp only [runOps, List.foldl, h1, h2, h3]
  have htrace : traceR (initReconciler 100)
      [ROp.ingest (some 180) true, ROp.ingest (some 220) true, ROp.fire] =
      [initReconciler 100,
        { minHeight := 100
          height := 100
          lastHeight := 100
          framePending := true
          pending := some 180
          notifications := []
          rafRequests := 1 },
        { minHeight := 100
          height := 100
          lastHeight := 100
          framePending := true
          pending := some 220
          notifications := []
          rafRequests := 1 },
        { minHeight := 100
          height := 220
          lastHeight := 220
          framePending := false
          pending := none
          notifications := [220]
          rafRequests := 1 }] := by
    simp only [traceR, h1, h2, h3]
  refine ⟨by rw [hrun2], by rw [hrun2], by rw [hrun2], by rw [hrun3],
    by rw [hrun3], by rw [hrun3], ?_⟩
  intro s hs
  rw [htrace, h0] at hs
  simp only [List.mem_cons, List.not_mem_nil, or_false] at hs
  rcases hs with rfl | rfl | rfl | rfl <;>
    refine ⟨by norm_num, by simp⟩

/-- Witness for C1: instantiating the trace-wide conjunct at the run's
starting point. -/
theorem burst_commits_latest_only_witness :
    (initReconciler 100).height ≠ 180 ∧
    (180 : ℚ) ∉ (initReconciler 100).notifications :=
  burst_commits_latest_only.2.2.2.2.2.2 (initReconciler 100)
    (by rw [traceR]; exact List.mem_cons_self _ _)

/-- C3: whenever a payload coerces to a finite, strictly positive number `v`
and the candidate `max(minHeight, ceil v)` is within one unit of the current
committed height, ingesting it returns the state unchanged: the committed
height stays, no commit is scheduled and no notification fires.
`lastHeight` is the code's mirror of the committed height (the two are
written together in `commitHeight`), which the hypothesis `hsync` records. -/
theorem threshold_suppresses_commit (r : Reconciler) (v : ℚ) (raf : Bool)
    (hv : 0 < v)
    (hsync : r.lastHeight = r.height)
    (hth : |max r.minHeight (jsCeil v) - r.height| ≤ 1) :
    setHeightFromPayload r (some v) raf = r := by
  have hth' : |max r.minHeight (jsCeil v) - r.lastHeight| ≤ 1 := by
    rw [hsync]; exact hth
  simp only [setHeightFromPayload]
  rw [if_neg (not_le.mpr hv), if_pos hth']

/-- Witness for C3: with `minHeight = 100` and committed height 100, the
payload 100.5 (candidate 101) is suppressed. -/
theorem threshold_suppresses_commit_witness :
    0 < (201 / 2 : ℚ) ∧
    setHeightFromPayload (initReconciler 100) (some (201 / 2)) true
      = initReconciler 100 := by
  have hceil : ⌈(201 / 2 : ℚ)⌉ = 101 := by
    rw [Int.ceil_eq_iff]
    constructor <;> norm_num
  refine ⟨by norm_num, threshold_suppresses_commit (initReconciler 100)
    (201 / 2) true (by norm_num) rfl ?_⟩
  norm_num [initReconciler, jsCeil, hceil, max_def]

/-- C5: raising the configured minimum `m` strictly above the current
committed height, from a state with no commit in flight, requests exactly one
animation frame with `ceil m` as the single pending value, through the very
`scheduleCommit`/`flushPendingHeight` path payloads use; firing that frame
commits `ceil m` and notifies it exactly once. -/
theorem raise_min_single_commit (r : Reconciler) (m : ℚ)
    (hidle : r.framePending = false)
    (hraise : r.lastHeight < m) :
    (applyMinHeight r m true).pending = some (jsCeil m) ∧
    (applyMinHeight r m true).rafRequests = r.rafRequests + 1 ∧
    (applyMinHeight r m true).framePending = true ∧
    (applyMinHeight r m true).notifications = r.notifications ∧
    fireFrame (applyMinHeight r m true) =
      { r with
        minHeight := m
        height := jsCeil m
        lastHeight := jsCeil m
        framePending := false
        pending := none
        notifications := r.notifications ++ [jsCeil m]
        rafRequests := r.rafRequests + 1 } := by
  simp only [applyMinHeight, scheduleCommit, fireFrame, flushPendingHeight,
    commitHeight, hidle, if_pos hraise]
  simp

/-- Witness for C5: from the initial state at `minHeight = 100` (committed
100), raising the minimum to 150.5 schedules and then commits 151. -/
theorem raise_min_single_commit_witness :
    (initReconciler 100).framePending = false ∧
    (initReconciler 100).lastHeight < (301 / 2 : ℚ) ∧
    (applyMinHeight (initReconciler 100) (301 / 2) true).pending
      = some (jsCeil (301 / 2)) ∧
    (fireFrame (applyMinHeight (initReconciler 100) (301 / 2) true)).height
      = jsCeil (301 / 2) := by
  have h1 : (initReconciler 100).framePending = false := rfl
  have h2 : (initReconciler 100).lastHeight < (301 / 2 : ℚ) := by
    norm_num [initReconciler, max_def]
  have h := raise_min_single_commit (initReconciler 100) (301 / 2) h1 h2
  exact ⟨h1, h2, h.1, by rw [h.2.2.2.2]⟩

/-- Iterated firing of whatever animation-frame callbacks are queued. -/
def fireN : Nat → Reconciler → Reconciler
  | 0, r => r
  | n + 1, r => fireN n (fireFrame r)

/-- C6: disposal cancels the outstanding animation frame, so no matter how
many frame-callback opportunities follow, the committed height and the
notification log never change again; moreover a stray flush that finds no
pending value only clears the frame flag — it commits nothing and calls no
callback. -/
theorem teardown_is_inert (r : Reconciler) (n : Nat) :
    fireN n (disposeReconciler r) = disposeReconciler r ∧
    (fireN n (disposeReconciler r)).height = r.height ∧
    (fireN n (disposeReconciler r)).notifications = r.notifications ∧
    ∀ r2 : Reconciler, r2.pending = none →
      flushPendingHeight r2 = { r2 with framePending := false } := by
  have hfire : ∀ r3 : Reconciler, r3.framePending = false → fireFrame r3 = r3 := by
    intro r3 h3
    simp [fireFrame, h3]
  have key : ∀ (k : Nat) (r3 : Reconciler), r3.framePending = false →
      fireN k r3 = r3 := by
    intro k
    induction k with
    | zero => intro r3 _; rfl
    | succ k ih =>
      intro r3 h3
      rw [fireN, hfire r3 h3]
      exact ih r3 h3
  have hmain := key n (disposeReconciler r) rfl
  refine ⟨hmain, by rw [hmain]; rfl, by rw [hmain]; rfl, ?_⟩
  intro r2 h2
  cases r2
  simp only [flushPendingHeight]
  simp only at h2
  subst h2
  rfl

/-- Witness for C6: the concrete state reached after ingesting 190 at
`minHeight = 70`, once disposed, stays at its committed height through two
further frame opportunities; and a stray flush of the quiescent initial state
is a no-op on height and notifications. -/
theorem teardown_is_inert_witness :
    (fireN 2 (disposeReconciler
        (runOps (initReconciler 70) [ROp.ingest (some 190) true]))).height
      = (runOps (initReconciler 70) [ROp.ingest (some 190) true]).height ∧
    flushPendingHeight (initReconciler 100)
      = { initReconciler 100 with framePending := false } := by
  refine ⟨(teardown_is_inert
    (runOps (initReconciler 70) [ROp.ingest (some 190) true]) 2).2.1, ?_⟩
  exact (teardown_is_inert (initReconciler 100) 0).2.2.2
    (initReconciler 100) rfl

/-- C2 counterexample: starting at `minHeight = 120` (committed 120), the
operation sequence "reconfigure minHeight to 50, ingest payload 60, let the
scheduled commit fire" drives the committed height down to 60, strictly below
the initial minimum 120 — so it is not the case that the committed height
stays `≥ m` at every point of every operation sequence, once sequences may
reconfigure the minimum. -/
theorem committed_min_invariant_cex :
    ¬ ∀ s ∈ traceR (initReconciler 120)
        [ROp.reconfig 50 true, ROp.ingest (some 60) true, ROp.fire],
      (120 : ℚ) ≤ s.height := by
  have h0 : initReconciler 120 =
      { minHeight := 120
        height := 120
        lastHeight := 120
        framePending := false
        pending := none
        notifications := []
        rafRequests := 0 } := by
    norm_num [initReconciler, max_def]
  have h1 : stepR (initReconciler 120) (ROp.reconfig 50 true) =
      { minHeight := 50
        height := 120
        lastHeight := 120
        framePending := false
        pending := none
        notifications := []
        rafRequests := 0 } := by
    rw [h0]
    norm_num [stepR, applyMinHeight]
  have h2 : stepR
      { minHeight := (50 : ℚ)
        height := 120
        lastHeight := 120
        framePending := false
        pending := none
        notifications := []
        rafRequests := 0 } (ROp.ingest (some 60) true) =
      { minHeight := 50
        height := 120
        lastHeight := 120
        framePending := true
        pending := some 60
        notifications := []
        rafRequests := 1 } := by
    norm_num [stepR, setHeightFromPayload, jsCeil, scheduleCommit, max_def]
  have h3 : stepR
      { minHeight := (50 : ℚ)
        height := 120
        lastHeight := 120
        framePending := true
        pending := some 60
        notifications := []
        rafRequests := 1 } ROp.fire =
      { minHeight := 50
        height := 60
        lastHeight := 60
        framePending := false
        pending := none
        notifications := [60]
        rafRequests := 1 } := by
    norm_num [stepR, fireFrame, flushPendingHeight, commitHeight]
  have htrace : traceR (initReconciler 120)
      [ROp.reconfig 50 true, ROp.ingest (some 60) true, ROp.fire] =
      [initReconciler 120,
        { minHeight := 50
          height := 120
          lastHeight := 120
          framePending := false
          pending := none
          notifications := []
          rafRequests := 0 },
        { minHeight := 50
          height := 120
          lastHeight := 120
          framePending := true
          pending := some 60
          notifications := []
          rafRequests := 1 },
        { minHeight := 50
          height := 60
          lastHeight := 60
          framePending := false
          pending := none
          notifications := [60]
          rafRequests := 1 }] := by
    simp only [traceR, h1, h2, h3]
  intro hall
  rw [htrace] at hall
  have hle := hall
    { minHeight := 50, height := 60, lastHeight := 60, framePending := false, pending := none, notifications := [60], rafRequests := 1 }
    (by simp)
  norm_num at hle

/-- Inductive invariant carried through the Reconciler state machine for the
amended C2: every height-carrying field dominates the lower bound `m`. -/
def RInv (m : ℚ) (r : Reconciler) : Prop :=
  m ≤ r.minHeight ∧ m ≤ r.height ∧ m ≤ r.lastHeight ∧
    ∀ p, r.pending = some p → m ≤ p

theorem rinv_init (m : ℚ) : RInv m (initReconciler m) :=
  ⟨le_refl m, le_max_left m 1, le_max_left m 1, by intro p hp; cases hp⟩

theorem rinv_commit {m : ℚ} {r : Reconciler} {next : ℚ} (h : RInv m r)
    (hn : m ≤ next) : RInv m (commitHeight r next) :=
  ⟨h.1, hn, hn, by intro p hp; exact h.2.2.2 p hp⟩

theorem rinv_flush {m : ℚ} {r : Reconciler} (h : RInv m r) :
    RInv m (flushPendingHeight r) := by
  unfold flushPendingHeight
  cases hp : r.pending with
  | none => exact ⟨h.1, h.2.1, h.2.2.1, by intro p hc; cases hc⟩
  | some p =>
    exact rinv_commit ⟨h.1, h.2.1, h.2.2.1, by intro q hq; cases hq⟩
      (h.2.2.2 p hp)

theorem rinv_schedule {m : ℚ} {r : Reconciler} {next : ℚ} {raf : Bool}
    (h : RInv m r) (hn : m ≤ next) : RInv m (scheduleCommit r next raf) := by
  have h1 : RInv m { r with pending := some next } :=
    ⟨h.1, h.2.1, h.2.2.1, by intro p hp; cases hp; exact hn⟩
  unfold scheduleCommit
  dsimp only
  split
  · exact h1
  · split
    · exact ⟨h1.1, h1.2.1, h1.2.2.1, h1.2.2.2⟩
    · exact rinv_flush h1

theorem rinv_step {m : ℚ} {r : Reconciler} {op : ROp} (h : RInv m r)
    (hop : ∀ m' raf, op = ROp.reconfig m' raf → m ≤ m') :
    RInv m (stepR r op) := by
  cases op with
  | fire =>
    simp only [stepR, fireFrame]
    split
    · exact rinv_flush h
    · exact h
  | ingest payload raf =>
    simp only [stepR]
    cases payload with
    | none => exact h
    | some v =>
      simp only [setHeightFromPayload]
      split
      · exact h
      · split
        · exact h
        · exact rinv_schedule h
            (le_trans h.1 (le_max_left r.minHeight (jsCeil v)))
  | reconfig m' raf =>
    have hm : m ≤ m' := hop m' raf rfl
    have h1 : RInv m { r with minHeight := m' } :=
      ⟨hm, h.2.1, h.2.2.1, h.2.2.2⟩
    simp only [stepR, applyMinHeight]
    split
    · refine rinv_schedule h1 (le_trans hm ?_)
      exact_mod_cast Int.le_ceil m'
    · exact h1

/-- C2, amended: with ingestion, reconfiguration and commit flushes allowed in
any order, the committed height stays `≥ m` at every point of the run —
provided no reconfiguration ever sets the minimum height below `m` (with an
unrestricted lowering of the minimum, followed by a small payload, the
committed height drops below the original minimum, as the counterexample
shows). In particular, with a fixed `minHeight = m` the invariant holds
unconditionally. -/
theorem committed_min_invariant (m : ℚ) (ops : List ROp)
    (hops : ∀ m' raf, ROp.reconfig m' raf ∈ ops → m ≤ m') :
    ∀ s ∈ traceR (initReconciler m) ops, m ≤ s.height := by
  have key : ∀ (l : List ROp) (r : Reconciler), RInv m r →
      (∀ m' raf, ROp.reconfig m' raf ∈ l → m ≤ m') →
      ∀ s ∈ traceR r l, m ≤ s.height := by
    intro l
    induction l with
    | nil =>
      intro r hr _ s hs
      rw [traceR] at hs
      simp only [List.mem_singleton] at hs
      subst hs
      exact hr.2.1
    | cons op rest ih =>
      intro r hr hl s hs
      rw [traceR] at hs
      simp only [List.mem_cons] at hs
      rcases hs with rfl | hs
      · exact hr.2.1
      · refine ih (stepR r op) ?_ ?_ s hs
        · exact rinv_step hr fun m' raf he => hl m' raf (he ▸ List.mem_cons_self op rest)
        · intro m' raf hmem
          exact hl m' raf (List.mem_cons_of_mem op hmem)
  exact key ops (initReconciler m) (rinv_init m) hops

/-- Witness for the amended C2: instantiated at `m = 120` with the run
"ingest 200, fire the commit, reconfigure the minimum up to 300" (no
reconfiguration below 120) and the run's starting point. -/
theorem committed_min_invariant_witness :
    (120 : ℚ) ≤ (initReconciler 120).height := by
  refine committed_min_invariant 120
    [ROp.ingest (some 200) true, ROp.fire, ROp.reconfig 300 true] ?_
    (initReconciler 120) ?_
  · intro m' raf hmem
    simp only [List.mem_cons, List.not_mem_nil, or_false] at hmem
    rcases hmem with h | h | h
    · exact ROp.noConfusion h
    · exact ROp.noConfusion h
    · injection h with h1 h2
      rw [h1]
      norm_num
  · rw [traceR]
    exact List.mem_cons_self _ _

/-- Session state of the in-page measurement Agent (the `state` record the
`AUTO_HEIGHT_BRIDGE` script stores under `window.__RN_SIZED_WEBVIEW__`).

`lastHeight` is the last value handed to the outbound channel (`0` before any
post); `anomalyCount` counts the run of consecutive implausibly large samples;
`pendingLoads` is the in-flight media-load counter (kept as an integer so that
its non-negativity is a theorem, not a typing artifact); `fallbackScheduled`
abstracts `state.fallbackTimer != null`; `posted` logs every
`postMessage(String(sanitized))` delivery in order; `remeasures` counts the
forced `scheduleMeasure(true)` calls issued while deferring an anomalous
sample. The channel itself is modelled as always delivering: the script
swallows channel exceptions and the spec treats them as a separate
failure mode. Dead state (`lastCssHeight`, written but never read) is
omitted. -/
structure AgentState where
  lastHeight : ℤ
  anomalyCount : Nat
  pendingLoads : ℤ
  fallbackScheduled : Bool
  posted : List ℤ
  remeasures : Nat
deriving Repr, DecidableEq

/-- Agent state right after a fresh bootstrap (`pendingLoads = 0`,
`lastHeight = 0`, no anomaly run; bootstrap arms the fallback timer). -/
def agentInit : AgentState :=
  { lastHeight := 0
    anomalyCount := 0
    pendingLoads := 0
    fallbackScheduled := true
    posted := []
    remeasures := 0 }

/-- Final de-duplication and delivery step of `postHeight`: skip when the
sanitized value equals `state.lastHeight`, otherwise record it and hand it to
`window.ReactNativeWebView.postMessage`. -/
def deliverPost (s : AgentState) (sanitized : ℤ) : AgentState :=
  if s.lastHeight = sanitized then s
  else { s with
    lastHeight := sanitized
    posted := s.posted ++ [sanitized] }

/-- The Agent's `postHeight` routine. The argument is the JS number handed in
by `runMeasure`/`measureHeight`; `none` models `NaN` and `±Infinity`, which
the `!rawHeight || rawHeight <= 0` and `isFinite(sanitized)` guards discard
without touching the posting state. A positive value is ceiled; a sanitized
value above 100000 counts as anomalous and is deferred — `anomalyCount` is
bumped and, below a run of 3, a forced re-measurement is scheduled instead of
a post; a plausible value resets the anomaly run. -/
def postHeight (s : AgentState) (rawHeight : Option ℚ) : AgentState :=
  match rawHeight with
  | none => s
  | some v =>
    if v ≤ 0 then s
    else
      let sanitized : ℤ := ⌈v⌉
      if 100000 < sanitized then
        if s.anomalyCount + 1 < 3 then
          { s with
            anomalyCount := s.anomalyCount + 1
            remeasures := s.remeasures + 1 }
        else deliverPost { s with anomalyCount := s.anomalyCount + 1 } sanitized
      else deliverPost { s with anomalyCount := 0 } sanitized

/-- The Agent's `markLoading`: unconditional increment of the in-flight
media counter, plus `scheduleFallback()`. -/
def markLoading (s : AgentState) : AgentState :=
  { s with
    pendingLoads := s.pendingLoads + 1
    fallbackScheduled := true }

/-- The Agent's `clearLoading`: the decrement runs only behind the
`state.pendingLoads > 0` guard. -/
def clearLoading (s : AgentState) : AgentState :=
  if 0 < s.pendingLoads then { s with pendingLoads := s.pendingLoads - 1 }
  else s

/-- One event touching the in-flight media-load counter. -/
inductive LoadOp where
  | mark
  | clear
deriving Repr, DecidableEq

/-- Run a sequence of `markLoading`/`clearLoading` calls. -/
def applyLoadOps (s : AgentState) : List LoadOp → AgentState
  | [] => s
  | op :: ops =>
    applyLoadOps (match op with
      | .mark => markLoading s
      | .clear => clearLoading s) ops

/-- Run a sequence of measured samples through `postHeight`. -/
def applyPosts (s : AgentState) : List (Option ℚ) → AgentState
  | [] => s
  | h :: rest => applyPosts (postHeight s h) rest

/-- The de-duplication key tracks the posting log: `lastHeight` equals the
most recently delivered value (or the initial `0` before any delivery). -/
def PostedInv (s : AgentState) : Prop :=
  (s.posted = [] ∧ s.lastHeight = 0) ∨ s.posted.getLast? = some s.lastHeight

/-- C8: the Agent posts a candidate only when it is finite, strictly positive
and its sanitized value differs from `lastHeight` — and `lastHeight` is
exactly the last successfully delivered value (third conjunct, an invariant
holding at bootstrap and preserved by every `postHeight` call), not merely the
last candidate: an attempt that delivers nothing (invalid, anomalous or
duplicate) never updates the key (second conjunct), so the candidate is not
suppressed on the next attempt; and a value seen before is posted again after
intermediate changes, as the concrete oscillation 100, 200, 100 at the end
shows. -/
theorem post_dedup_by_last_posted :
    (∀ (s : AgentState) (h : Option ℚ),
      (postHeight s h).posted ≠ s.posted →
      ∃ v : ℚ, h = some v ∧ 0 < v ∧ (⌈v⌉ : ℤ) ≠ s.lastHeight ∧
        (postHeight s h).posted = s.posted ++ [(⌈v⌉ : ℤ)] ∧
        (postHeight s h).lastHeight = ⌈v⌉) ∧
    (∀ (s : AgentState) (h : Option ℚ),
      (postHeight s h).posted = s.posted →
      (postHeight s h).lastHeight = s.lastHeight) ∧
    (PostedInv agentInit ∧ ∀ (s : AgentState) (h : Option ℚ),
      PostedInv s → PostedInv (postHeight s h)) ∧
    (applyPosts agentInit [some 100, some 200, some 100]).posted
      = [100, 200, 100] := by
  refine ⟨?_, ?_, ⟨Or.inl ⟨rfl, rfl⟩, ?_⟩, ?_⟩
  · intro s h hne
    match h with
    | none => exact absurd rfl hne
    | some v =>
      by_cases hv : v ≤ 0
      · exact absurd (show (postHeight s (some v)).posted = s.posted by
          simp [postHeight, hv]) hne
      · by_cases hbig : (100000 : ℤ) < ⌈v⌉
        · by_cases hcnt : s.anomalyCount + 1 < 3
          · exact absurd (show (postHeight s (some v)).posted = s.posted by
              simp [postHeight, hv, hbig, hcnt]) hne
          · by_cases hdup : s.lastHeight = (⌈v⌉ : ℤ)
            · exact absurd (show (postHeight s (some v)).posted = s.posted by
                simp [postHeight, deliverPost, hv, hbig, hcnt, hdup]) hne
            · exact ⟨v, rfl, not_le.mp hv, Ne.symm hdup,
                by simp [postHeight, deliverPost, hv, hbig, hcnt, hdup],
                by simp [postHeight, deliverPost, hv, hbig, hcnt, hdup]⟩
        · by_cases hdup : s.lastHeight = (⌈v⌉ : ℤ)
          · exact absurd (show (postHeight s (some v)).posted = s.posted by
              simp [postHeight, deliverPost, hv, hbig, hdup]) hne
          · exact ⟨v, rfl, not_le.mp hv, Ne.symm hdup,
              by simp [postHeight, deliverPost, hv, hbig, hdup],
              by simp [postHeight, deliverPost, hv, hbig, hdup]⟩
  · intro s h heq
    match h with
    | none => rfl
    | some v =>
      by_cases hv : v ≤ 0
      · simp [postHeight, hv]
      · by_cases hbig : (100000 : ℤ) < ⌈v⌉
        · by_cases hcnt : s.anomalyCount + 1 < 3
          · simp [postHeight, hv, hbig, hcnt]
          · by_cases hdup : s.lastHeight = (⌈v⌉ : ℤ)
            · simp [postHeight, deliverPost, hv, hbig, hcnt, hdup]
            · exfalso
              have : (postHeight s (some v)).posted = s.posted ++ [(⌈v⌉ : ℤ)] := by
                simp [postHeight, deliverPost, hv, hbig, hcnt, hdup]
              rw [this] at heq
              simpa using congrArg List.length heq
        · by_cases hdup : s.lastHeight = (⌈v⌉ : ℤ)
          · simp [postHeight, deliverPost, hv, hbig, hdup]
          · exfalso
            have : (postHeight s (some v)).posted = s.posted ++ [(⌈v⌉ : ℤ)] := by
              simp [postHeight, deliverPost, hv, hbig, hdup]
            rw [this] at heq
            simpa using congrArg List.length heq
  · intro s h hinv
    match h with
    | none => exact hinv
    | some v =>
      by_cases hv : v ≤ 0
      · simpa [postHeight, hv] using hinv
      · by_cases hbig : (100000 : ℤ) < ⌈v⌉
        · by_cases hcnt : s.anomalyCount + 1 < 3
          · unfold PostedInv at hinv ⊢
            simpa [postHeight, hv, hbig, hcnt] using hinv
          · by_cases hdup : s.lastHeight = (⌈v⌉ : ℤ)
            · unfold PostedInv at hinv ⊢
              simpa [postHeight, deliverPost, hv, hbig, hcnt, hdup] using hinv
            · unfold PostedInv
              refine Or.inr ?_
              simp [postHeight, deliverPost, hv, hbig, hcnt, hdup,
                List.getLast?_concat]
        · by_cases hdup : s.lastHeight = (⌈v⌉ : ℤ)
          · unfold PostedInv at hinv ⊢
            simpa [postHeight, deliverPost, hv, hbig, hdup] using hinv
          · unfold PostedInv
            refine Or.inr ?_
            simp [postHeight, deliverPost, hv, hbig, hdup,
              List.getLast?_concat]
  · norm_num [applyPosts, postHeight, deliverPost, agentInit]

/-- Witness for C8: a non-positive sample leaves the de-duplication key
untouched, and the duplicate sample 100 right after a successful post of 100
is suppressed without touching the log, both obtained by instantiating the
theorem at concrete states. -/
theorem post_dedup_by_last_posted_witness :
    (postHeight agentInit (some (-5))).lastHeight = agentInit.lastHeight ∧
    PostedInv (postHeight agentInit (some 100)) := by
  constructor
  · exact post_dedup_by_last_posted.2.1 agentInit (some (-5))
      (by norm_num [postHeight])
  · exact post_dedup_by_last_posted.2.2.1.2 agentInit (some 100)
      (Or.inl ⟨rfl, rfl⟩)

/-- C9: a measured sample whose sanitized value exceeds the implausibility
threshold 100000, arriving with no anomaly run in progress, is not posted and
not discarded: the first and second occurrences defer it by scheduling a
forced re-measurement each (posting log unchanged, de-duplication key
unchanged), and only the third consecutive occurrence posts it. -/
theorem anomaly_deferred_until_confirmed (s : AgentState) (v : ℚ)
    (h0 : s.anomalyCount = 0) (hv : 0 < v) (hbig : (100000 : ℤ) < ⌈v⌉)
    (hne : s.lastHeight ≠ (⌈v⌉ : ℤ)) :
    (postHeight s (some v)).posted = s.posted ∧
    (postHeight s (some v)).remeasures = s.remeasures + 1 ∧
    (postHeight s (some v)).lastHeight = s.lastHeight ∧
    (postHeight s (some v)).anomalyCount = 1 ∧
    (postHeight (postHeight s (some v)) (some v)).posted = s.posted ∧
    (postHeight (postHeight s (some v)) (some v)).remeasures
      = s.remeasures + 2 ∧
    (postHeight (postHeight s (some v)) (some v)).lastHeight = s.lastHeight ∧
    (postHeight (postHeight s (some v)) (some v)).anomalyCount = 2 ∧
    (postHeight (postHeight (postHeight s (some v)) (some v)) (some v)).posted
      = s.posted ++ [(⌈v⌉ : ℤ)] ∧
    (postHeight (postHeight (postHeight s (some v)) (some v))
      (some v)).lastHeight = ⌈v⌉ := by
  have hv' : ¬ v ≤ 0 := not_le.mpr hv
  have h1 : postHeight s (some v) =
      { s with
        anomalyCount := s.anomalyCount + 1
        remeasures := s.remeasures + 1 } := by
    simp [postHeight, hv', hbig, h0]
  have h2 : postHeight
      { s with
        anomalyCount := s.anomalyCount + 1
        remeasures := s.remeasures + 1 } (some v) =
      { s with
        anomalyCount := s.anomalyCount + 2
        remeasures := s.remeasures + 2 } := by
    have hlt : ({ s with
        anomalyCount := s.anomalyCount + 1
        remeasures := s.remeasures + 1 } : AgentState).anomalyCount + 1 < 3 := by
      simp [h0]
    simp only [postHeight, if_neg hv', if_pos hbig, if_pos hlt]
  have h3 : postHeight
      { s with
        anomalyCount := s.anomalyCount + 2
        remeasures := s.remeasures + 2 } (some v) =
      { s with
        anomalyCount := s.anomalyCount + 3
        remeasures := s.remeasures + 2
        lastHeight := (⌈v⌉ : ℤ)
        posted := s.posted ++ [(⌈v⌉ : ℤ)] } := by
    have hc : ¬ (({ s with
        anomalyCount := s.anomalyCount + 2
        remeasures := s.remeasures + 2 } : AgentState).anomalyCount + 1 < 3) := by
      simp [h0]
    simp only [postHeight, if_neg hv', if_pos hbig, if_neg hc, deliverPost]
    rw [if_neg (by simpa using hne)]
  rw [h1, h2, h3]
  refine ⟨rfl, rfl, rfl, by simp [h0], rfl, rfl, rfl, by simp [h0], rfl, rfl⟩

/-- Witness for C9: the fresh session receiving the implausible sample 200001
three times in a row posts nothing on the first two receipts and posts 200001
on the third. -/
theorem anomaly_deferred_until_confirmed_witness :
    (postHeight agentInit (some 200001)).posted = [] ∧
    (postHeight (postHeight agentInit (some 200001)) (some 200001)).posted
      = [] ∧
    (postHeight (postHeight (postHeight agentInit (some 200001))
      (some 200001)) (some 200001)).posted = [(⌈(200001 : ℚ)⌉ : ℤ)] := by
  have h := anomaly_deferred_until_confirmed agentInit 200001 rfl
    (by norm_num) (by norm_num) (by norm_num [agentInit])
  exact ⟨h.1, h.2.2.2.2.1, h.2.2.2.2.2.2.2.2.1⟩

/-- C10: the in-flight media-load counter never goes negative: whatever
interleaving of `markLoading` and `clearLoading` runs — spurious extra
`clearLoading` calls included — a state with a non-negative counter only ever
evolves into states with a non-negative counter, because the decrement is
guarded by `state.pendingLoads > 0`; in particular every run from the fresh
session keeps the counter `≥ 0`. -/
theorem pending_loads_never_negative (s : AgentState) (ops : List LoadOp)
    (hs : 0 ≤ s.pendingLoads) :
    0 ≤ (applyLoadOps s ops).pendingLoads ∧
    0 ≤ (applyLoadOps agentInit ops).pendingLoads := by
  have key : ∀ (l : List LoadOp) (t : AgentState), 0 ≤ t.pendingLoads →
      0 ≤ (applyLoadOps t l).pendingLoads := by
    intro l
    induction l with
    | nil => intro t ht; exact ht
    | cons op rest ih =>
      intro t ht
      cases op with
      | mark =>
        refine ih (markLoading t) ?_
        simp only [markLoading]
        omega
      | clear =>
        refine ih (clearLoading t) ?_
        simp only [clearLoading]
        split
        · dsimp only
          omega
        · exact ht
  exact ⟨key ops s hs, key ops agentInit (by norm_num [agentInit])⟩

/-- Witness for C10: two spurious `clearLoading` calls, one `markLoading`,
then two more `clearLoading` calls leave the fresh session's counter
non-negative. -/
theorem pending_loads_never_negative_witness :
    0 ≤ (applyLoadOps agentInit
      [LoadOp.clear, LoadOp.clear, LoadOp.mark, LoadOp.clear,
        LoadOp.clear]).pendingLoads :=
  (pending_loads_never_negative agentInit
    [LoadOp.clear, LoadOp.clear, LoadOp.mark, LoadOp.clear, LoadOp.clear]
    (by norm_num [agentInit])).1

/-- Observable bootstrap state of one document hosting the Agent script.
`sessionInstalled` is the presence of the session object under the well-known
global key `window.__RN_SIZED_WEBVIEW__`; `observerSets` counts how many times
the bootstrap installed its set of observers (mutation, resize, viewport,
fonts, global events, message watcher); `refreshCalls` counts invocations of
the installed session's `refresh()`; `forcedMeasures` counts forced
`scheduleMeasure(true)` passes (one per bootstrap, one per refresh). -/
structure BridgeWindow where
  sessionInstalled : Bool
  observerSets : Nat
  refreshCalls : Nat
  forcedMeasures : Nat
deriving Repr, DecidableEq

/-- A document in which the Agent script has never run. -/
def freshWindow : BridgeWindow :=
  { sessionInstalled := false
    observerSets := 0
    refreshCalls := 0
    forcedMeasures := 0 }

/-- One execution of the injected `AUTO_HEIGHT_BRIDGE` script: if the session
marker already exists in the document's global scope, call its `refresh()`
(which forces a re-measurement) and return; otherwise store the session state
under the global key and run `bootstrap()`, which installs the observer set
once and forces an initial measurement. -/
def runBridge (w : BridgeWindow) : BridgeWindow :=
  if w.sessionInstalled then
    { w with
      refreshCalls := w.refreshCalls + 1
      forcedMeasures := w.forcedMeasures + 1 }
  else
    { w with
      sessionInstalled := true
      observerSets := w.observerSets + 1
      forcedMeasures := w.forcedMeasures + 1 }

/-- C4: running the Agent's installation routine twice in a fresh document
installs the observer set exactly once; the second run performs no
installation at all — it goes through the already-installed session's
`refresh()` (exactly one refresh call, forcing one extra re-measurement).
In general any run in a document that already holds the session installs
nothing and forces a re-measurement via `refresh()`. -/
theorem bootstrap_idempotent :
    (runBridge (runBridge freshWindow)).observerSets = 1 ∧
    (runBridge (runBridge freshWindow)).refreshCalls = 1 ∧
    (runBridge freshWindow).refreshCalls = 0 ∧
    (runBridge (runBridge freshWindow)).forcedMeasures = 2 ∧
    (∀ w : BridgeWindow, w.sessionInstalled = true →
      (runBridge w).observerSets = w.observerSets ∧
      (runBridge w).refreshCalls = w.refreshCalls + 1 ∧
      (runBridge w).forcedMeasures = w.forcedMeasures + 1 ∧
      (runBridge w).sessionInstalled = true) := by
  refine ⟨rfl, rfl, rfl, rfl, ?_⟩
  intro w hw
  simp [runBridge, hw]

/-- Witness for C4: the session-holding window reached by one bootstrap of a
fresh document gains no second observer set from a further run. -/
theorem bootstrap_idempotent_witness :
    (runBridge (runBridge freshWindow)).observerSets
      = (runBridge freshWindow).observerSets ∧
    (runBridge (runBridge freshWindow)).refreshCalls
      = (runBridge freshWindow).refreshCalls + 1 :=
  ⟨(bootstrap_idempotent.2.2.2.2 (runBridge freshWindow) rfl).1,
    (bootstrap_idempotent.2.2.2.2 (runBridge freshWindow) rfl).2.1⟩

/-- JS `chunks.filter(Boolean)` on `Array<string | undefined>`: keep exactly
the present, non-empty chunks (both `undefined` and the empty string are
falsy). -/
def jsFilterChunks (chunks : List (Option String)) : List String :=
  chunks.filterMap fun c =>
    match c with
    | none => none
    | some s => if s.isEmpty then none else some s

/-- The `composeInjectedScript` utility: drop falsy chunks; with none left
return `undefined` (skip injection); otherwise join the survivors with
newlines and append the trailing `true;` statement. -/
def composeInjectedScript (chunks : List (Option String)) : Option String :=
  let parts := jsFilterChunks chunks
  if parts.isEmpty then none
  else some (String.intercalate "\n" parts ++ "\ntrue;")

/-- C7: composing yields "no script" (`none`) exactly when every entry is
absent or empty; otherwise the result is precisely the remaining chunks
joined by newlines with the trailing truthy statement `true;` appended — so
every produced script ends in the truthy terminator; in particular composing
`a();` and `b();` yields `a();`, `b();` and `true;` joined by newlines. -/
theorem compose_script_shape :
    (∀ chunks : List (Option String),
      composeInjectedScript chunks = none ↔
        ∀ c ∈ chunks, c = none ∨ c = some "") ∧
    (∀ chunks : List (Option String), jsFilterChunks chunks ≠ [] →
      composeInjectedScript chunks
        = some (String.intercalate "\n" (jsFilterChunks chunks)
            ++ "\ntrue;")) ∧
    (∀ (chunks : List (Option String)) (s : String),
      composeInjectedScript chunks = some s →
      ∃ body : String, s = body ++ "\ntrue;") ∧
    composeInjectedScript [some "a();", some "b();"]
      = some "a();\nb();\ntrue;" ∧
    ("a();" ++ "\n" ++ "b();" ++ "\n" ++ "true;" : String)
      = "a();\nb();\ntrue;" := by
  have hkeep : ∀ c : Option String,
      (match c with
        | none => none
        | some s => if s.isEmpty then none else some s : Option String)
        = none ↔ c = none ∨ c = some "" := by
    intro c
    cases c with
    | none => simp
    | some s =>
      by_cases hs : s.isEmpty
      · have hs' : s = "" := (String.isEmpty_iff s).mp hs
        subst hs'
        simp [hs]
      · simp only [if_neg hs]
        constructor
        · intro h; cases h
        · intro h
          rcases h with h | h
          · cases h
          · injection h with h
            rw [h] at hs
            exact absurd rfl hs
  refine ⟨?_, ?_, ?_, by rfl, by rfl⟩
  · intro chunks
    constructor
    · intro h c hc
      rw [composeInjectedScript] at h
      by_cases hp : (jsFilterChunks chunks).isEmpty
      · have hnil : jsFilterChunks chunks = [] :=
          List.isEmpty_iff.mp hp
        rw [jsFilterChunks, List.filterMap_eq_nil_iff] at hnil
        exact (hkeep c).mp (hnil c hc)
      · rw [if_neg hp] at h
        cases h
    · intro h
      have hnil : jsFilterChunks chunks = [] := by
        rw [jsFilterChunks, List.filterMap_eq_nil_iff]
        intro c hc
        exact (hkeep c).mpr (h c hc)
      rw [composeInjectedScript, hnil]
      rfl
  · intro chunks hne
    rw [composeInjectedScript,
      if_neg (by simpa [List.isEmpty_iff] using hne)]
  · intro chunks s h
    rw [composeInjectedScript] at h
    by_cases hp : (jsFilterChunks chunks).isEmpty
    · rw [if_pos hp] at h
      cases h
    · rw [if_neg hp] at h
      injection h with h
      exact ⟨String.intercalate "\n" (jsFilterChunks chunks), h.symm⟩

/-- Witness for C7: the concrete composition of `a();` and `b();` is indeed
newline-joined with a trailing `true;`, obtained through the theorem's
join-shape conjunct. -/
theorem compose_script_shape_witness :
    composeInjectedScript [some "a();", some "b();"]
      = some (String.intercalate "\n"
          (jsFilterChunks [some "a();", some "b();"]) ++ "\ntrue;") ∧
    (∃ body : String, "a();\nb();\ntrue;" = body ++ "\ntrue;") := by
  constructor
  · exact compose_script_shape.2.1 [some "a();", some "b();"] (by decide)
  · exact compose_script_shape.2.2.1 [some "a();", some "b();"]
      "a();\nb();\ntrue;" (by rfl)

end SizedWebView
